import Mathlib

/-!
# Upload handler of the file server (`cmd/cli/main.go`)

A shallow embedding of `uploadFileHandler` and `renderError`.  The handler is a
straight-line sequence of calls into the Go standard library (`net/http`,
`mime`, `path/filepath`, `os`).  Those calls are the handler's environment:

* what the request parser, the reader, the content sniffer and the extension
  table return is an input of the model (`Request`, `Env`); the concrete
  requests used as examples get their `FileHeader.Filename` from the declared
  file name the way `mime/multipart` derives it (`partFileName`);
* `path/filepath` (Unix build, the only one `main.go` is compiled for) is
  modelled as executable functions on strings;
* the file system is a map from path to node, with `os.MkdirAll`, `os.Create`
  and `File.Write` acting on it; failures the map cannot explain (permissions,
  full disk, ...) are injected through `Env`.

Every call the handler makes is recorded, in order, in a list of `Event`s; the
HTTP response is read off that list.
-/

set_option linter.unusedVariables false

namespace FileServer

/-! ## Constants of `main.go` and of `net/http` -/

/-- Source: `const maxUploadSize = 10 * 1024 * 1024 * 1024 // 10 gb`. -/
def maxUploadSize : Int := 10 * 1024 * 1024 * 1024

/-- Value of `http.StatusOK`. -/
def StatusOK : Nat := 200

/-- Value of `http.StatusBadRequest`. -/
def StatusBadRequest : Nat := 400

/-- Value of `http.StatusInternalServerError`. -/
def StatusInternalServerError : Nat := 500

/-! ## `path/filepath` on Unix -/

/-- Unix `os.IsPathSeparator`. -/
def isPathSeparator (c : Char) : Bool := c = '/'

/-- The `..` case of `filepath.Clean` when it can backtrack: `out.w--`, then
`for out.w > dotdot && !IsPathSeparator(out.index(out.w)) { out.w-- }`.
The buffer is kept reversed (last byte written first). -/
def backtrack (dotdot : Nat) : List Char → List Char
  | [] => []
  | c :: buf =>
    if buf.length > dotdot && !isPathSeparator c then backtrack dotdot buf else buf

/-- The "add slash if needed" step of `filepath.Clean` before a real path element:
`if rooted && out.w != 1 || !rooted && out.w != 0 { out.append(Separator) }`. -/
def addSeparator (rooted : Bool) (buf : List Char) : List Char :=
  if (rooted && buf.length != 1) || (!rooted && buf.length != 0) then '/' :: buf else buf

/-- The main loop of `filepath.Clean`.  The unread part of the path is the list
argument; `inElem` says that the loop is inside the copy of a real path element
(the inner `for` of the default case); `buf` is the reversed output buffer. -/
def cleanLoop (rooted : Bool) : List Char → Bool → List Char → Nat → List Char
  | [], _, buf, _ => buf
  | c :: rest, inElem, buf, dotdot =>
    if inElem then
      if isPathSeparator c then cleanLoop rooted rest false buf dotdot
      else cleanLoop rooted rest true (c :: buf) dotdot
    else if isPathSeparator c then
      -- empty path element
      cleanLoop rooted rest false buf dotdot
    else if c = '.' && (rest.isEmpty || rest.head? == some '/') then
      -- . element
      cleanLoop rooted rest false buf dotdot
    else
      match rest with
      | c2 :: rest2 =>
        if c = '.' && c2 = '.' && (rest2.isEmpty || rest2.head? == some '/') then
          -- .. element: remove to last separator
          if buf.length > dotdot then
            cleanLoop rooted rest2 false (backtrack dotdot buf) dotdot
          else if !rooted then
            let buf1 := if buf.length > 0 then '/' :: buf else buf
            cleanLoop rooted rest2 false ('.' :: '.' :: buf1) (buf1.length + 2)
          else
            cleanLoop rooted rest2 false buf dotdot
        else
          -- real path element
          cleanLoop rooted (c2 :: rest2) true (c :: addSeparator rooted buf) dotdot
      | [] =>
        cleanLoop rooted [] true (c :: addSeparator rooted buf) dotdot

/-- Unix `filepath.Clean` on the bytes of a path. -/
def cleanChars (path : List Char) : List Char :=
  match path with
  | [] => ['.']
  | c :: rest =>
    let rooted := isPathSeparator c
    let buf :=
      if rooted then cleanLoop true rest false ['/'] 1
      else cleanLoop false (c :: rest) false [] 0
    if buf.isEmpty then ['.'] else buf.reverse

/-- Unix `filepath.Clean`. -/
def filepathClean (path : String) : String := String.mk (cleanChars path.data)

/-- Unix `filepath.Join` of two elements: the elements from the first non-empty
one on are joined with `/` and cleaned; all empty gives the empty string. -/
def filepathJoin (a b : String) : String :=
  if a.data ≠ [] then String.mk (cleanChars (a.data ++ '/' :: b.data))
  else if b.data ≠ [] then String.mk (cleanChars b.data)
  else ""

/-- Unix `filepath.Dir`: everything up to and including the last separator,
cleaned. -/
def filepathDir (path : String) : String :=
  String.mk (cleanChars ((path.data.reverse.dropWhile (fun c => !isPathSeparator c)).reverse))

/-- Unix `filepath.Base`: the last element of the path, trailing separators
removed first; `.` for the empty path and `/` for a path of separators only. -/
def filepathBase (path : String) : String :=
  if path.data.isEmpty then "."
  else
    let stripped := path.data.reverse.dropWhile isPathSeparator
    let last := (stripped.takeWhile (fun c => !isPathSeparator c)).reverse
    if last.isEmpty then "/" else String.mk last

/-! ## The file system -/

/-- Contents of a file: a sequence of bytes. -/
abbrev Bytes := List (Fin 256)

/-- What a path names: a directory or a regular file with its content. -/
inductive Node where
  | dir
  | file (content : Bytes)
  deriving DecidableEq, Repr

/-- A file-system state: what each path names, if anything. -/
abbrev FS := String → Option Node

/-- The state in which path `p` names node `n` and every other path is as in `fs`. -/
def FS.set (fs : FS) (p : String) (n : Node) : FS :=
  fun q => if q = p then some n else fs q

/-- Whether a lookup result is a regular file. -/
def isFile : Option Node → Bool
  | some (Node.file _) => true
  | _ => false

/-- The directory `path` and its parents, outermost first: every prefix of the
path that stops right before a separator (the leading one apart), and the path
itself.  These are the paths `os.MkdirAll` visits. -/
def ancestorsAux : List Char → List Char → List String
  | seen, [] => [String.mk seen.reverse]
  | seen, c :: rest =>
    if isPathSeparator c && !seen.isEmpty then
      String.mk seen.reverse :: ancestorsAux (c :: seen) rest
    else ancestorsAux (c :: seen) rest

/-- See `ancestorsAux`. -/
def ancestors (path : String) : List String := ancestorsAux [] path.data

/-- Model of `os.MkdirAll(path, perm)`.  It fails with the injected error, or
when the path or one of its parents is a regular file; otherwise the path and
every missing parent become directories and what exists is left alone ("if path
is already a directory, MkdirAll does nothing and returns nil").  A failing call
leaves the state as it was. -/
def osMkdirAll (fault : Option String) (fs : FS) (path : String) : Except String FS :=
  match fault with
  | some e => Except.error e
  | none =>
    if (ancestors path).any (fun q => isFile (fs q)) then
      Except.error ("mkdir " ++ path ++ ": not a directory")
    else
      Except.ok (fun q => if q ∈ ancestors path ∧ fs q = none then some Node.dir else fs q)

/-- Model of `os.Create(path)`: open for writing, create if missing, truncate
if present.  It fails with the injected error, or when the path is a directory;
a failing call leaves the state as it was. -/
def osCreate (fault : Option String) (fs : FS) (path : String) : Except String FS :=
  match fault with
  | some e => Except.error e
  | none =>
    match fs path with
    | some Node.dir => Except.error ("open " ++ path ++ ": is a directory")
    | _ => Except.ok (fs.set path (Node.file []))

/-- Model of the first `Write(b)` on the handle `os.Create(path)` returned (offset
0).  Without a fault all of `b` is stored and the error is nil.  With the fault
`some n` only the first `n` bytes are stored and an error is returned (`Write`
"returns a non-nil error when n != len(b)").  Stored bytes replace the
beginning of the file. -/
def fileWrite (fault : Option Nat) (fs : FS) (path : String) (b : Bytes) : FS × Option String :=
  match fs path with
  | some (Node.file old) =>
    match fault with
    | none => (fs.set path (Node.file (b ++ old.drop b.length)), none)
    | some n =>
      (fs.set path (Node.file (b.take n ++ old.drop (b.take n).length)),
        some ("write " ++ path ++ ": i/o error"))
  | _ => (fs, some ("write " ++ path ++ ": bad file descriptor"))

/-! ## Requests, environment, events -/

/-- The fields of `multipart.FileHeader` the handler reads. -/
structure FileHeader where
  Filename : String
  Size : Int

/-- What `r.FormFile` hands back on success: the header, and what
`ioutil.ReadAll(file)` will return for the opened part. -/
structure Upload where
  fileHeader : FileHeader
  readAll : Except String Bytes

/-- An incoming request, as far as the handler looks at it. -/
structure Request where
  Method : String
  /-- Error returned by `r.ParseMultipartForm(maxUploadSize)`; `none` is nil. -/
  parseMultipartForm : Option String
  /-- Result of `r.FormFile(name)`. -/
  formFile : String → Except String Upload

/-- Results of the library and system calls of one handler run. -/
structure Env where
  /-- Result of `vfstemplate.ParseFiles(assets, nil, "upload.gtpl")`, as the page the
  template renders. -/
  template : Except String String
  /-- The function `http.DetectContentType`. -/
  detectContentType : Bytes → String
  /-- The function `mime.ExtensionsByType`. -/
  extensionsByType : String → Except String (List String)
  /-- Error forced on `os.MkdirAll`, if any. -/
  mkdirAllFault : Option String
  /-- Error forced on `os.Create`, if any. -/
  createFault : Option String
  /-- Failure forced on `newFile.Write`: the number of bytes stored before the error. -/
  writeFault : Option Nat
  /-- Whether the `newFile.Close()` in the condition after `Write` returns an error. -/
  closeFails : Bool

/-- An argument of a `fmt.Printf` or `fmt.Println` call. -/
inductive Arg where
  | int (v : Int)
  | str (s : String)
  | err (e : String)
  deriving DecidableEq, Repr

/-- The calls the handler makes, in the order it makes them. -/
inductive Event where
  | parseFiles
  | execute (page : String)
  | nilTemplate
  | parseMultipartForm (maxMemory : Int)
  | formFile (name : String)
  | uploadClose
  | readAll
  | detectContentType
  | extensionsByType (typ : String)
  | mkdirAll (path : String) (perm : Nat)
  | create (path : String)
  | newFileWrite (b : Bytes)
  | newFileClose
  | printf (format : String) (args : List Arg)
  | println (args : List Arg)
  | writeHeader (statusCode : Nat)
  | write (body : String)
  deriving DecidableEq, Repr

/-- What a handler run leaves behind: its calls and the file system. -/
structure Outcome where
  calls : List Event
  fs : FS

/-! ## The response, read off the calls -/

/-- The chunks written to the response body, in order. -/
def bodyWrites : List Event → List String
  | [] => []
  | Event.write b :: es => b :: bodyWrites es
  | Event.execute page :: es => page :: bodyWrites es
  | _ :: es => bodyWrites es

/-- The response body. -/
def bodyOf (calls : List Event) : String := String.join (bodyWrites calls)

/-- The status code explicitly set with `WriteHeader`, the first one winning
(`net/http` ignores later calls); `none` when the header went out through a
body write or not at all. -/
def writtenStatus : List Event → Option Nat
  | [] => none
  | Event.writeHeader c :: _ => some c
  | Event.write _ :: _ => none
  | Event.execute _ :: _ => none
  | _ :: es => writtenStatus es

/-- The status code of the response: the one set explicitly, else
`http.StatusOK` ("if WriteHeader is not called explicitly, the first call to
Write will trigger an implicit WriteHeader(http.StatusOK)"). -/
def statusOf (calls : List Event) : Nat := (writtenStatus calls).getD StatusOK

/-! ## `main.go` -/

/-- Source: `func renderError(w http.ResponseWriter, message string, statusCode int)`:
```go
w.WriteHeader(http.StatusBadRequest)
w.Write([]byte(message))
```
`w` is the list of calls made so far. -/
def renderError (w : List Event) (message : String) (statusCode : Nat) : List Event :=
  w ++ [Event.writeHeader StatusBadRequest, Event.write message]

/-- The statement `switch detectedFileType { ... }` of the handler, as the calls
each arm makes.  An arm without statements does nothing (Go does not fall into
the next arm), and `break` leaves the switch. -/
def typeSwitch (detectedFileType : String) : List Event :=
  if detectedFileType = "img/jpeg" ∨ detectedFileType = "image/jpg" then []
  else if detectedFileType = "image/gif" ∨ detectedFileType = "image/png" then []
  else if detectedFileType = "application/pdf" then
    -- break
    []
  else
    -- Allow all file tye: break
    []

/-- The tail of the handler once `os.Create` has returned `newFile`:
```go
defer newFile.Close()
if _, err := newFile.Write(fileBytes); err != nil && newFile.Close() != nil {
    renderError(w, "CANT_WRITE_FILE", http.StatusInternalServerError)
    return
}
w.Write([]byte("SUCCESS"))
```
followed by the deferred `newFile.Close()` and `file.Close()`. -/
def writeStage (env : Env) (w : List Event) (fs : FS) (newPath : String) (fileBytes : Bytes) :
    Outcome :=
  let res := fileWrite env.writeFault fs newPath fileBytes
  let w := w ++ [Event.newFileWrite fileBytes]
  match res.2 with
  | some err =>
    -- err != nil: the right operand of && is evaluated
    let w := w ++ [Event.newFileClose]
    if env.closeFails then
      ⟨renderError w "CANT_WRITE_FILE" StatusInternalServerError
        ++ [Event.newFileClose, Event.uploadClose], res.1⟩
    else
      ⟨w ++ [Event.write "SUCCESS", Event.newFileClose, Event.uploadClose], res.1⟩
  | none =>
    ⟨w ++ [Event.write "SUCCESS", Event.newFileClose, Event.uploadClose], res.1⟩

/-- The part of the handler from `fileName := fileHeader.Filename` to
`os.Create`, then `writeStage`. -/
def persistStage (env : Env) (uploadPath : String) (w : List Event) (fs : FS)
    (fileHeader : FileHeader) (fileBytes : Bytes) (detectedFileType : String) : Outcome :=
  let fileName := fileHeader.Filename
  let w := w ++ [Event.extensionsByType detectedFileType]
  match env.extensionsByType detectedFileType with
  | Except.error err =>
    ⟨renderError w "CANT_READ_FILE_TYPE" StatusInternalServerError ++ [Event.uploadClose], fs⟩
  | Except.ok _ =>
    let newPath := filepathJoin uploadPath fileName
    let w := w ++ [Event.printf "FileType: %s, File: %s\n" [Arg.str detectedFileType, Arg.str newPath]]
    -- Write file
    let w := w ++ [Event.mkdirAll (filepathDir newPath) 0o770]
    match osMkdirAll env.mkdirAllFault fs (filepathDir newPath) with
    | Except.error err =>
      ⟨renderError w "CANT_WRITE_FILE" StatusInternalServerError ++ [Event.uploadClose], fs⟩
    | Except.ok fs =>
      let w := w ++ [Event.create newPath]
      match osCreate env.createFault fs newPath with
      | Except.error err =>
        ⟨renderError (w ++ [Event.println [Arg.err err]]) "CANT_WRITE_FILE"
          StatusInternalServerError ++ [Event.uploadClose], fs⟩
      | Except.ok fs => writeStage env w fs newPath fileBytes

/-- Source: `func uploadFileHandler(uploadPath string) http.HandlerFunc`, the
function it returns, run on request `r` in file-system state `fs`. -/
def uploadFileHandler (env : Env) (uploadPath : String) (r : Request) (fs : FS) : Outcome :=
  if r.Method = "GET" then
    match env.template with
    | Except.error err =>
      -- `t` is nil: `t.Execute` dereferences it and the handler panics
      ⟨[Event.parseFiles, Event.println [Arg.err err], Event.nilTemplate], fs⟩
    | Except.ok page => ⟨[Event.parseFiles, Event.execute page], fs⟩
  else
    let w := [Event.parseMultipartForm maxUploadSize]
    match r.parseMultipartForm with
    | some err =>
      ⟨renderError (w ++ [Event.printf "Could not parse multipart form: %v\n" [Arg.err err]])
        "CANT_PARSE_FORM" StatusInternalServerError, fs⟩
    | none =>
      -- parse and validate file and post parameters
      let w := w ++ [Event.formFile "uploadFile"]
      match r.formFile "uploadFile" with
      | Except.error err => ⟨renderError w "INVALID_FILE" StatusBadRequest, fs⟩
      | Except.ok up =>
        let fileHeader := up.fileHeader
        -- Get and print out file size
        let fileSize := fileHeader.Size
        let w := w ++ [Event.printf "File size (bytes): %v\n" [Arg.int fileSize]]
        -- Validate file size
        if fileSize > maxUploadSize then
          ⟨renderError w "FILE_TOO_BIG" StatusBadRequest ++ [Event.uploadClose], fs⟩
        else
          let w := w ++ [Event.readAll]
          match up.readAll with
          | Except.error err =>
            ⟨renderError w "INVALID_FILE" StatusBadRequest ++ [Event.uploadClose], fs⟩
          | Except.ok fileBytes =>
            -- Check file type, detect content type only needs the first 512 bytes
            let detectedFileType := env.detectContentType fileBytes
            let w := w ++ [Event.detectContentType] ++ typeSwitch detectedFileType
            persistStage env uploadPath w fs fileHeader fileBytes detectedFileType

/-! ## Concrete inputs -/

/-- The file system with nothing in it: no upload root, no file. -/
def emptyFS : FS := fun _ => none

/-- An environment in which every call works: the sniffer reports the fallback
type, the extension table knows it, no system call is made to fail. -/
def calmEnv : Env where
  template := Except.ok "<form>"
  detectContentType := fun _ => "application/octet-stream"
  extensionsByType := fun _ => Except.ok []
  mkdirAllFault := none
  createFault := none
  writeFault := none
  closeFails := false

/-- Model of `(*multipart.Part).FileName`, the value `r.FormFile` hands over
as `FileHeader.Filename`: empty when the part declares no file name, else
`filepath.Base` of the declared name ("if a filename is provided, the directory
path information must not be used"). -/
def partFileName (declared : String) : String :=
  if declared.data.isEmpty then "" else filepathBase declared

/-- A POST whose form parses and carries the field `uploadFile`, the part
declaring file name `name`, with size `size` and reading to `content`.  The
handler receives `partFileName name`; a part without a file name is a plain
value, for which `r.FormFile` returns `http.ErrMissingFile`. -/
def postOf (name : String) (size : Int) (content : Bytes) : Request where
  Method := "POST"
  parseMultipartForm := none
  formFile := fun field =>
    if field = "uploadFile" ∧ partFileName name ≠ "" then
      Except.ok ⟨⟨partFileName name, size⟩, Except.ok content⟩
    else Except.error "http: no such file"

/-- The file system that holds the root directory `/` and nothing else. -/
def rootOnlyFS : FS := emptyFS.set "/" Node.dir

/-- A POST whose form parses but has no `uploadFile` field. -/
def postWithoutFile : Request where
  Method := "POST"
  parseMultipartForm := none
  formFile := fun _ => Except.error "http: no such file"

/-- A POST whose body is not a multipart form. -/
def postMalformed : Request where
  Method := "POST"
  parseMultipartForm := some "no multipart boundary param in Content-Type"
  formFile := fun _ => Except.error "no multipart boundary param in Content-Type"

/-- The environment `calmEnv`, except that `newFile.Write` stores only the
first `n` bytes and returns an error, and the `Close` that follows returns nil. -/
def shortWriteEnv (n : Nat) : Env :=
  { calmEnv with writeFault := some n, closeFails := false }

/-- The environment `calmEnv`, except that `os.Create` is refused. -/
def noCreateEnv : Env :=
  { calmEnv with createFault := some "permission denied" }

/-- Whether the cleaned path `p` is the cleaned directory `root` or lies below it. -/
def underRoot (root p : String) : Bool :=
  p == root || (root.data ++ ['/']).isPrefixOf p.data

/-! ## Auxiliary lemmas -/

theorem typeSwitch_nil (t : String) : typeSwitch t = [] := by
  unfold typeSwitch
  split
  · rfl
  · split
    · rfl
    · split <;> rfl

theorem mem_ancestorsAux (seen rest : List Char) :
    String.mk (seen.reverse ++ rest) ∈ ancestorsAux seen rest := by
  induction rest generalizing seen with
  | nil => simp [ancestorsAux]
  | cons c rest ih =>
    have h := ih (c :: seen)
    simp only [List.reverse_cons, List.append_assoc, List.singleton_append] at h
    unfold ancestorsAux
    split
    · exact List.mem_cons_of_mem _ h
    · exact h

theorem mem_ancestors_self (path : String) : path ∈ ancestors path := by
  have h := mem_ancestorsAux [] path.data
  simpa [ancestors] using h

theorem osMkdirAll_ok {fault : Option String} {fs fs1 : FS} {path : String}
    (h : osMkdirAll fault fs path = Except.ok fs1) :
    (∀ q, q ∈ ancestors path → fs1 q = some Node.dir) ∧
    (∀ q, fs q ≠ none → fs1 q = fs q) ∧
    (∀ q, q ∉ ancestors path → fs1 q = fs q) := by
  unfold osMkdirAll at h
  cases fault with
  | some e => simp at h
  | none =>
    simp only at h
    split at h
    · simp at h
    · rename_i hany
      injection h with h
      subst h
      refine ⟨?_, ?_, ?_⟩
      · intro q hq
        by_cases hn : fs q = none
        · simp [hq, hn]
        · simp only [hn, and_false, if_false]
          have hf : isFile (fs q) ≠ true := fun hf => hany (List.any_eq_true.mpr ⟨q, hq, hf⟩)
          cases hfq : fs q with
          | none => exact absurd hfq hn
          | some n =>
            cases n with
            | dir => rfl
            | file c => simp [hfq, isFile] at hf
      · intro q hq
        simp [hq]
      · intro q hq
        simp [hq]

theorem osCreate_ok {fault : Option String} {fs fs2 : FS} {path : String}
    (h : osCreate fault fs path = Except.ok fs2) :
    fs path ≠ some Node.dir ∧ fs2 = fs.set path (Node.file []) := by
  unfold osCreate at h
  cases fault with
  | some e => simp at h
  | none =>
    simp only at h
    split at h
    · simp at h
    · rename_i hnd
      injection h with h
      exact ⟨fun hd => hnd hd, h.symm⟩

theorem fileWrite_fresh {fault : Option Nat} {fs : FS} {path : String} (b : Bytes)
    (hfile : fs path = some (Node.file []))
    (h : (fileWrite fault fs path b).2 = none) :
    fault = none ∧ (fileWrite fault fs path b).1 = fs.set path (Node.file b) := by
  unfold fileWrite at h ⊢
  cases fault with
  | some n => simp [hfile] at h
  | none => simp [hfile]

theorem bodyOf_single {calls : List Event} {s : String} (h : bodyWrites calls = [s]) :
    bodyOf calls = s := by
  simp [bodyOf, h, String.join]

/-- The run in which every step succeeds, spelled out. -/
theorem handler_all_steps_ok {env : Env} {uploadPath : String} {r : Request} {fs fs1 fs2 : FS}
    {up : Upload} {B : Bytes} {exts : List String}
    (hmethod : r.Method ≠ "GET")
    (hparse : r.parseMultipartForm = none)
    (hfield : r.formFile "uploadFile" = Except.ok up)
    (hsize : up.fileHeader.Size ≤ maxUploadSize)
    (hread : up.readAll = Except.ok B)
    (hext : env.extensionsByType (env.detectContentType B) = Except.ok exts)
    (hmkdir : osMkdirAll env.mkdirAllFault fs
      (filepathDir (filepathJoin uploadPath up.fileHeader.Filename)) = Except.ok fs1)
    (hcreate : osCreate env.createFault fs1
      (filepathJoin uploadPath up.fileHeader.Filename) = Except.ok fs2)
    (hwrite : (fileWrite env.writeFault fs2
      (filepathJoin uploadPath up.fileHeader.Filename) B).2 = none) :
    (uploadFileHandler env uploadPath r fs).fs
        = (fs1.set (filepathJoin uploadPath up.fileHeader.Filename) (Node.file [])).set
            (filepathJoin uploadPath up.fileHeader.Filename) (Node.file B) ∧
    bodyWrites (uploadFileHandler env uploadPath r fs).calls = ["SUCCESS"] ∧
    writtenStatus (uploadFileHandler env uploadPath r fs).calls = none := by
  obtain ⟨hnd, hfs2⟩ := osCreate_ok hcreate
  have hfile : fs2 (filepathJoin uploadPath up.fileHeader.Filename) = some (Node.file []) := by
    simp [hfs2, FS.set]
  obtain ⟨hfault, hfs3⟩ := fileWrite_fresh B hfile hwrite
  have hsz : ¬ up.fileHeader.Size > maxUploadSize := not_lt.mpr hsize
  simp only [uploadFileHandler, persistStage, writeStage, hmethod, hparse, hfield, hsz, hread,
    hext, hmkdir, hcreate, hwrite, hfs3, if_false, typeSwitch_nil]
  subst hfs2
  simp [bodyWrites, writtenStatus]

/-- Every non-GET run writes the body once, and it is one of the six tokens;
the error tokens go out after `WriteHeader(400)`, `SUCCESS` without any
`WriteHeader`. -/
theorem handler_response (env : Env) (uploadPath : String) (r : Request) (fs : FS)
    (hmethod : r.Method ≠ "GET") :
    (bodyWrites (uploadFileHandler env uploadPath r fs).calls = ["SUCCESS"] ∧
      writtenStatus (uploadFileHandler env uploadPath r fs).calls = none) ∨
    ((bodyWrites (uploadFileHandler env uploadPath r fs).calls = ["CANT_PARSE_FORM"] ∨
      bodyWrites (uploadFileHandler env uploadPath r fs).calls = ["INVALID_FILE"] ∨
      bodyWrites (uploadFileHandler env uploadPath r fs).calls = ["FILE_TOO_BIG"] ∨
      bodyWrites (uploadFileHandler env uploadPath r fs).calls = ["CANT_READ_FILE_TYPE"] ∨
      bodyWrites (uploadFileHandler env uploadPath r fs).calls = ["CANT_WRITE_FILE"]) ∧
      writtenStatus (uploadFileHandler env uploadPath r fs).calls = some 400) := by
  simp only [uploadFileHandler, persistStage, writeStage, hmethod, if_false, typeSwitch_nil]
  repeat' split
  all_goals simp [renderError, bodyWrites, writtenStatus, StatusBadRequest]

/-- Once the size check has let the request through, the part is read and the
token is not `FILE_TOO_BIG`. -/
theorem handler_past_size_check {env : Env} {uploadPath : String} {r : Request} {fs : FS}
    {up : Upload}
    (hmethod : r.Method ≠ "GET")
    (hparse : r.parseMultipartForm = none)
    (hfield : r.formFile "uploadFile" = Except.ok up)
    (hsize : ¬ up.fileHeader.Size > maxUploadSize) :
    Event.readAll ∈ (uploadFileHandler env uploadPath r fs).calls ∧
    bodyWrites (uploadFileHandler env uploadPath r fs).calls ≠ ["FILE_TOO_BIG"] := by
  simp only [uploadFileHandler, persistStage, writeStage, hmethod, hparse, hfield, hsize,
    if_false, typeSwitch_nil]
  repeat' split
  all_goals simp [renderError, bodyWrites]

/-! ## The claims -/

/-- C1: a non-GET request whose form parses, whose `uploadFile` field is there
with a declared size of at most `maxUploadSize`, whose part reads to `B`, whose
sniffed type passes the extension lookup, and for which `MkdirAll`, `Create` and
`Write` succeed, leaves at `filepath.Join(uploadPath, Filename)` a file with
content exactly `B`, inside a directory that now exists whatever the file system
held before; the body is `SUCCESS`, written once, with no `WriteHeader` call, so
the status is 200. -/
theorem upload_stores_payload (env : Env) (uploadPath : String) (r : Request) (fs fs1 fs2 : FS)
    (up : Upload) (B : Bytes) (exts : List String)
    (hmethod : r.Method ≠ "GET")
    (hparse : r.parseMultipartForm = none)
    (hfield : r.formFile "uploadFile" = Except.ok up)
    (hsize : up.fileHeader.Size ≤ maxUploadSize)
    (hread : up.readAll = Except.ok B)
    (hext : env.extensionsByType (env.detectContentType B) = Except.ok exts)
    (hmkdir : osMkdirAll env.mkdirAllFault fs
      (filepathDir (filepathJoin uploadPath up.fileHeader.Filename)) = Except.ok fs1)
    (hcreate : osCreate env.createFault fs1
      (filepathJoin uploadPath up.fileHeader.Filename) = Except.ok fs2)
    (hwrite : (fileWrite env.writeFault fs2
      (filepathJoin uploadPath up.fileHeader.Filename) B).2 = none) :
    (uploadFileHandler env uploadPath r fs).fs (filepathJoin uploadPath up.fileHeader.Filename)
      = some (Node.file B) ∧
    (uploadFileHandler env uploadPath r fs).fs
      (filepathDir (filepathJoin uploadPath up.fileHeader.Filename)) = some Node.dir ∧
    bodyWrites (uploadFileHandler env uploadPath r fs).calls = ["SUCCESS"] ∧
    bodyOf (uploadFileHandler env uploadPath r fs).calls = "SUCCESS" ∧
    writtenStatus (uploadFileHandler env uploadPath r fs).calls = none ∧
    statusOf (uploadFileHandler env uploadPath r fs).calls = 200 := by
  obtain ⟨hfs, hbody, hstatus⟩ :=
    handler_all_steps_ok hmethod hparse hfield hsize hread hext hmkdir hcreate hwrite
  obtain ⟨hdirs, -, -⟩ := osMkdirAll_ok hmkdir
  obtain ⟨hnd, -⟩ := osCreate_ok hcreate
  have hdir := hdirs _ (mem_ancestors_self _)
  refine ⟨?_, ?_, hbody, bodyOf_single hbody, hstatus, ?_⟩
  · simp [hfs, FS.set]
  · have hne : filepathDir (filepathJoin uploadPath up.fileHeader.Filename)
        ≠ filepathJoin uploadPath up.fileHeader.Filename := by
      intro heq
      rw [heq] at hdir
      exact hnd hdir
    simp [hfs, FS.set, hne, hdir]
  · simp [statusOf, hstatus, StatusOK]

/-- C1, on a file system that holds nothing (no upload root): `note.txt` with
two bytes under `/srv/uploads`. -/
theorem upload_stores_payload_witness :
    emptyFS "/srv/uploads" = none ∧
    (uploadFileHandler calmEnv "/srv/uploads" (postOf "note.txt" 2 [104, 105]) emptyFS).fs
      "/srv/uploads/note.txt" = some (Node.file [104, 105]) ∧
    (uploadFileHandler calmEnv "/srv/uploads" (postOf "note.txt" 2 [104, 105]) emptyFS).fs
      "/srv/uploads" = some Node.dir ∧
    bodyOf (uploadFileHandler calmEnv "/srv/uploads" (postOf "note.txt" 2 [104, 105]) emptyFS).calls
      = "SUCCESS" :=
  have h := upload_stores_payload calmEnv "/srv/uploads" (postOf "note.txt" 2 [104, 105])
    emptyFS _ _ ⟨⟨"note.txt", 2⟩, Except.ok [104, 105]⟩ [104, 105] []
    (by decide) rfl rfl (by decide) rfl rfl rfl rfl rfl
  ⟨rfl, h.1, h.2.1, h.2.2.2.1⟩

/-- C3: on a non-GET request whose form parses and whose `uploadFile` part
declares more than `maxUploadSize` (10737418240) bytes, the handler parses,
looks the field up, prints the size, sends `FILE_TOO_BIG` and closes the part:
it neither reads nor sniffs the part and leaves the file system as it was.  A
declared size equal to `maxUploadSize` passes the check: the part is read and
the token is not `FILE_TOO_BIG`. -/
theorem oversize_upload_rejected (env : Env) (uploadPath : String) (r : Request) (fs : FS)
    (up : Upload)
    (hmethod : r.Method ≠ "GET")
    (hparse : r.parseMultipartForm = none)
    (hfield : r.formFile "uploadFile" = Except.ok up) :
    maxUploadSize = 10737418240 ∧
    (up.fileHeader.Size > maxUploadSize →
      (uploadFileHandler env uploadPath r fs).calls =
        [Event.parseMultipartForm maxUploadSize, Event.formFile "uploadFile",
          Event.printf "File size (bytes): %v\n" [Arg.int up.fileHeader.Size],
          Event.writeHeader 400, Event.write "FILE_TOO_BIG", Event.uploadClose] ∧
      bodyOf (uploadFileHandler env uploadPath r fs).calls = "FILE_TOO_BIG" ∧
      Event.readAll ∉ (uploadFileHandler env uploadPath r fs).calls ∧
      Event.detectContentType ∉ (uploadFileHandler env uploadPath r fs).calls ∧
      (uploadFileHandler env uploadPath r fs).fs = fs) ∧
    (up.fileHeader.Size = maxUploadSize →
      Event.readAll ∈ (uploadFileHandler env uploadPath r fs).calls ∧
      bodyWrites (uploadFileHandler env uploadPath r fs).calls ≠ ["FILE_TOO_BIG"]) := by
  refine ⟨by decide, ?_, ?_⟩
  · intro hsize
    have hcalls : (uploadFileHandler env uploadPath r fs).calls =
        [Event.parseMultipartForm maxUploadSize, Event.formFile "uploadFile",
          Event.printf "File size (bytes): %v\n" [Arg.int up.fileHeader.Size],
          Event.writeHeader 400, Event.write "FILE_TOO_BIG", Event.uploadClose] := by
      simp [uploadFileHandler, hmethod, hparse, hfield, hsize, renderError, StatusBadRequest]
    refine ⟨hcalls, ?_, ?_, ?_, ?_⟩
    · rw [hcalls]
      exact bodyOf_single rfl
    · rw [hcalls]
      simp
    · rw [hcalls]
      simp
    · simp [uploadFileHandler, hmethod, hparse, hfield, hsize]
  · intro hsize
    exact handler_past_size_check hmethod hparse hfield (by rw [hsize]; exact lt_irrefl _)

/-- C3, on a part that declares 11 GiB and on one that declares exactly 10 GiB. -/
theorem oversize_upload_rejected_witness :
    (bodyOf (uploadFileHandler calmEnv "/srv/uploads" (postOf "big.bin" 11811160064 [])
        emptyFS).calls = "FILE_TOO_BIG" ∧
      (uploadFileHandler calmEnv "/srv/uploads" (postOf "big.bin" 11811160064 [])
        emptyFS).fs = emptyFS) ∧
    bodyWrites (uploadFileHandler calmEnv "/srv/uploads" (postOf "max.bin" 10737418240 [])
        emptyFS).calls ≠ ["FILE_TOO_BIG"] :=
  have hbig := (oversize_upload_rejected calmEnv "/srv/uploads"
    (postOf "big.bin" 11811160064 []) emptyFS ⟨⟨"big.bin", 11811160064⟩, Except.ok []⟩
    (by decide) rfl rfl).2.1 (by decide)
  have hmax := (oversize_upload_rejected calmEnv "/srv/uploads"
    (postOf "max.bin" 10737418240 []) emptyFS ⟨⟨"max.bin", 10737418240⟩, Except.ok []⟩
    (by decide) rfl rfl).2.2 (by decide)
  ⟨⟨hbig.2.1, hbig.2.2.2.2⟩, hmax.2⟩

/-- C4: on a non-GET request whose form parses and for which
`r.FormFile("uploadFile")` returns an error (no such field, or the part cannot
be opened), the handler sends `INVALID_FILE` right after the lookup and leaves
the file system as it was. -/
theorem missing_field_rejected (env : Env) (uploadPath : String) (r : Request) (fs : FS)
    (e : String)
    (hmethod : r.Method ≠ "GET")
    (hparse : r.parseMultipartForm = none)
    (hfield : r.formFile "uploadFile" = Except.error e) :
    (uploadFileHandler env uploadPath r fs).calls =
      [Event.parseMultipartForm maxUploadSize, Event.formFile "uploadFile",
        Event.writeHeader 400, Event.write "INVALID_FILE"] ∧
    bodyOf (uploadFileHandler env uploadPath r fs).calls = "INVALID_FILE" ∧
    (uploadFileHandler env uploadPath r fs).fs = fs := by
  have hcalls : (uploadFileHandler env uploadPath r fs).calls =
      [Event.parseMultipartForm maxUploadSize, Event.formFile "uploadFile",
        Event.writeHeader 400, Event.write "INVALID_FILE"] := by
    simp [uploadFileHandler, hmethod, hparse, hfield, renderError, StatusBadRequest]
  refine ⟨hcalls, ?_, ?_⟩
  · rw [hcalls]
    exact bodyOf_single rfl
  · simp [uploadFileHandler, hmethod, hparse, hfield]

/-- C4, on a POST without the field. -/
theorem missing_field_rejected_witness :
    bodyOf (uploadFileHandler calmEnv "/srv/uploads" postWithoutFile emptyFS).calls
      = "INVALID_FILE" ∧
    (uploadFileHandler calmEnv "/srv/uploads" postWithoutFile emptyFS).fs = emptyFS :=
  (missing_field_rejected calmEnv "/srv/uploads" postWithoutFile emptyFS "http: no such file"
    (by decide) rfl rfl).2

/-- C5: on a non-GET request whose body does not parse as a multipart form,
the handler prints the error and sends `CANT_PARSE_FORM`; these are all its
calls (no field lookup, read, sniffing, extension lookup, directory or file
creation, write), and the file system is as it was. -/
theorem malformed_form_rejected (env : Env) (uploadPath : String) (r : Request) (fs : FS)
    (e : String)
    (hmethod : r.Method ≠ "GET")
    (hparse : r.parseMultipartForm = some e) :
    (uploadFileHandler env uploadPath r fs).calls =
      [Event.parseMultipartForm maxUploadSize,
        Event.printf "Could not parse multipart form: %v\n" [Arg.err e],
        Event.writeHeader 400, Event.write "CANT_PARSE_FORM"] ∧
    bodyOf (uploadFileHandler env uploadPath r fs).calls = "CANT_PARSE_FORM" ∧
    (uploadFileHandler env uploadPath r fs).fs = fs := by
  have hcalls : (uploadFileHandler env uploadPath r fs).calls =
      [Event.parseMultipartForm maxUploadSize,
        Event.printf "Could not parse multipart form: %v\n" [Arg.err e],
        Event.writeHeader 400, Event.write "CANT_PARSE_FORM"] := by
    simp [uploadFileHandler, hmethod, hparse, renderError, StatusBadRequest]
  refine ⟨hcalls, ?_, ?_⟩
  · rw [hcalls]
    exact bodyOf_single rfl
  · simp [uploadFileHandler, hmethod, hparse]

/-- C5, on a POST that is not a multipart form. -/
theorem malformed_form_rejected_witness :
    bodyOf (uploadFileHandler calmEnv "/srv/uploads" postMalformed emptyFS).calls
      = "CANT_PARSE_FORM" ∧
    (uploadFileHandler calmEnv "/srv/uploads" postMalformed emptyFS).fs = emptyFS :=
  (malformed_form_rejected calmEnv "/srv/uploads" postMalformed emptyFS
    "no multipart boundary param in Content-Type" (by decide) rfl).2

/-- C6: two uploads under the same declared file name, handled one after the
other, each passing every step: afterwards the file at
`filepath.Join(uploadPath, Filename)` holds exactly the second payload, and
every other path names what it named after the first upload. -/
theorem second_upload_replaces_first (env1 env2 : Env) (uploadPath : String) (r1 r2 : Request)
    (fs fsA1 fsA2 fsB1 fsB2 : FS) (up1 up2 : Upload) (B1 B2 : Bytes) (exts1 exts2 : List String)
    (hname : up2.fileHeader.Filename = up1.fileHeader.Filename)
    (hmethod1 : r1.Method ≠ "GET")
    (hparse1 : r1.parseMultipartForm = none)
    (hfield1 : r1.formFile "uploadFile" = Except.ok up1)
    (hsize1 : up1.fileHeader.Size ≤ maxUploadSize)
    (hread1 : up1.readAll = Except.ok B1)
    (hext1 : env1.extensionsByType (env1.detectContentType B1) = Except.ok exts1)
    (hmkdir1 : osMkdirAll env1.mkdirAllFault fs
      (filepathDir (filepathJoin uploadPath up1.fileHeader.Filename)) = Except.ok fsA1)
    (hcreate1 : osCreate env1.createFault fsA1
      (filepathJoin uploadPath up1.fileHeader.Filename) = Except.ok fsA2)
    (hwrite1 : (fileWrite env1.writeFault fsA2
      (filepathJoin uploadPath up1.fileHeader.Filename) B1).2 = none)
    (hmethod2 : r2.Method ≠ "GET")
    (hparse2 : r2.parseMultipartForm = none)
    (hfield2 : r2.formFile "uploadFile" = Except.ok up2)
    (hsize2 : up2.fileHeader.Size ≤ maxUploadSize)
    (hread2 : up2.readAll = Except.ok B2)
    (hext2 : env2.extensionsByType (env2.detectContentType B2) = Except.ok exts2)
    (hmkdir2 : osMkdirAll env2.mkdirAllFault (uploadFileHandler env1 uploadPath r1 fs).fs
      (filepathDir (filepathJoin uploadPath up2.fileHeader.Filename)) = Except.ok fsB1)
    (hcreate2 : osCreate env2.createFault fsB1
      (filepathJoin uploadPath up2.fileHeader.Filename) = Except.ok fsB2)
    (hwrite2 : (fileWrite env2.writeFault fsB2
      (filepathJoin uploadPath up2.fileHeader.Filename) B2).2 = none) :
    (uploadFileHandler env1 uploadPath r1 fs).fs
      (filepathJoin uploadPath up1.fileHeader.Filename) = some (Node.file B1) ∧
    (uploadFileHandler env2 uploadPath r2 (uploadFileHandler env1 uploadPath r1 fs).fs).fs
      (filepathJoin uploadPath up1.fileHeader.Filename) = some (Node.file B2) ∧
    ∀ q, q ≠ filepathJoin uploadPath up1.fileHeader.Filename →
      (uploadFileHandler env2 uploadPath r2 (uploadFileHandler env1 uploadPath r1 fs).fs).fs q
        = (uploadFileHandler env1 uploadPath r1 fs).fs q := by
  obtain ⟨hfs1, -, -⟩ :=
    handler_all_steps_ok hmethod1 hparse1 hfield1 hsize1 hread1 hext1 hmkdir1 hcreate1 hwrite1
  obtain ⟨hfs2, -, -⟩ :=
    handler_all_steps_ok hmethod2 hparse2 hfield2 hsize2 hread2 hext2 hmkdir2 hcreate2 hwrite2
  rw [hname] at hfs2 hmkdir2
  obtain ⟨hdirs1, -, -⟩ := osMkdirAll_ok hmkdir1
  obtain ⟨hnd1, -⟩ := osCreate_ok hcreate1
  obtain ⟨-, hkeep2, hout2⟩ := osMkdirAll_ok hmkdir2
  -- the second `MkdirAll` finds every directory in place
  have hsame : ∀ q, fsB1 q = (uploadFileHandler env1 uploadPath r1 fs).fs q := by
    intro q
    by_cases hq : q ∈ ancestors (filepathDir (filepathJoin uploadPath up1.fileHeader.Filename))
    · apply hkeep2
      have hd := hdirs1 q hq
      have hne : q ≠ filepathJoin uploadPath up1.fileHeader.Filename := by
        intro heq
        rw [heq] at hd
        exact hnd1 hd
      simp [hfs1, FS.set, hne, hd]
    · exact hout2 q hq
  refine ⟨?_, ?_, ?_⟩
  · simp [hfs1, FS.set]
  · simp [hfs2, FS.set]
  · intro q hq
    rw [hfs2]
    simp only [FS.set, hq, if_false]
    exact hsame q

/-- C6, on `note.txt` uploaded with three bytes and then with one. -/
theorem second_upload_replaces_first_witness :
    (uploadFileHandler calmEnv "/srv/uploads" (postOf "note.txt" 3 [1, 2, 3]) emptyFS).fs
      "/srv/uploads/note.txt" = some (Node.file [1, 2, 3]) ∧
    (uploadFileHandler calmEnv "/srv/uploads" (postOf "note.txt" 1 [9])
      (uploadFileHandler calmEnv "/srv/uploads" (postOf "note.txt" 3 [1, 2, 3]) emptyFS).fs).fs
      "/srv/uploads/note.txt" = some (Node.file [9]) :=
  have h := second_upload_replaces_first calmEnv calmEnv "/srv/uploads"
    (postOf "note.txt" 3 [1, 2, 3]) (postOf "note.txt" 1 [9]) emptyFS _ _ _ _
    ⟨⟨"note.txt", 3⟩, Except.ok [1, 2, 3]⟩ ⟨⟨"note.txt", 1⟩, Except.ok [9]⟩ [1, 2, 3] [9] [] []
    rfl (by decide) rfl rfl (by decide) rfl rfl rfl rfl rfl
    (by decide) rfl rfl (by decide) rfl rfl rfl rfl rfl
  ⟨h.1, h.2.1⟩

/-- C7: `renderError` calls `WriteHeader(400)` and then writes the message,
whatever `statusCode` it is given; so a non-GET run whose body is one of the
five error tokens has status 400. -/
theorem error_status_always_400 (w : List Event) (message : String) (statusCode : Nat)
    (env : Env) (uploadPath : String) (r : Request) (fs : FS)
    (hmethod : r.Method ≠ "GET")
    (hfail : bodyOf (uploadFileHandler env uploadPath r fs).calls ∈
      ["CANT_PARSE_FORM", "INVALID_FILE", "FILE_TOO_BIG", "CANT_READ_FILE_TYPE",
        "CANT_WRITE_FILE"]) :
    renderError w message statusCode = w ++ [Event.writeHeader 400, Event.write message] ∧
    statusOf (renderError [] message statusCode) = 400 ∧
    bodyOf (renderError [] message statusCode) = message ∧
    writtenStatus (uploadFileHandler env uploadPath r fs).calls = some 400 ∧
    statusOf (uploadFileHandler env uploadPath r fs).calls = 400 := by
  refine ⟨rfl, rfl, ?_, ?_⟩
  · exact bodyOf_single rfl
  · rcases handler_response env uploadPath r fs hmethod with ⟨hb, -⟩ | ⟨-, hs⟩
    · rw [bodyOf_single hb] at hfail
      exact absurd hfail (by decide)
    · exact ⟨hs, by simp [statusOf, hs]⟩

/-- C7, on an upload whose `os.Create` is refused: the call site passes
`http.StatusInternalServerError`, the response carries 400. -/
theorem error_status_always_400_witness :
    renderError [] "CANT_WRITE_FILE" StatusInternalServerError
      = [Event.writeHeader 400, Event.write "CANT_WRITE_FILE"] ∧
    bodyOf (uploadFileHandler noCreateEnv "/srv/uploads" (postOf "note.txt" 2 [104, 105])
      emptyFS).calls = "CANT_WRITE_FILE" ∧
    statusOf (uploadFileHandler noCreateEnv "/srv/uploads" (postOf "note.txt" 2 [104, 105])
      emptyFS).calls = 400 :=
  have h := error_status_always_400 [] "CANT_WRITE_FILE" StatusInternalServerError noCreateEnv
    "/srv/uploads" (postOf "note.txt" 2 [104, 105]) emptyFS (by decide) (by decide)
  ⟨h.1, by decide, h.2.2.2.2⟩

/-- C8, the claim's own example fails: a part declaring the file name
`../evil.txt` reaches the handler as `evil.txt`; with upload root `/srv/uploads`
the upload is answered `SUCCESS` and its file is `/srv/uploads/evil.txt`, under
the upload root, while nothing is created at `/srv/evil.txt`. -/
theorem declared_traversal_name_stays_in_root :
    partFileName "../evil.txt" = "evil.txt" ∧
    filepathJoin "/srv/uploads" (partFileName "../evil.txt") = "/srv/uploads/evil.txt" ∧
    underRoot "/srv/uploads" "/srv/uploads/evil.txt" = true ∧
    bodyOf (uploadFileHandler calmEnv "/srv/uploads" (postOf "../evil.txt" 2 [104, 105])
      rootOnlyFS).calls = "SUCCESS" ∧
    (uploadFileHandler calmEnv "/srv/uploads" (postOf "../evil.txt" 2 [104, 105]) rootOnlyFS).fs
      "/srv/uploads/evil.txt" = some (Node.file [104, 105]) ∧
    (uploadFileHandler calmEnv "/srv/uploads" (postOf "../evil.txt" 2 [104, 105]) rootOnlyFS).fs
      "/srv/evil.txt" = none ∧
    Event.create "/srv/evil.txt" ∉
      (uploadFileHandler calmEnv "/srv/uploads" (postOf "../evil.txt" 2 [104, 105])
        rootOnlyFS).calls := by
  refine ⟨by decide, by decide, by decide, by decide, by decide, by decide, by decide⟩

/-- C8, amended: the handler joins `fileHeader.Filename` to the upload root
without any check, and the base name the multipart library hands over can be
`..`.  With upload root `/srv/uploads` on a file system that holds only `/`, a
part declaring the file name `..` reaches the handler as `..`, the destination
is `/srv`, the upload is answered `SUCCESS` with status 200, and its bytes end
up in a regular file at `/srv`, which is not under the upload root. -/
theorem dotdot_name_escapes_root :
    partFileName ".." = ".." ∧
    filepathJoin "/srv/uploads" (partFileName "..") = "/srv" ∧
    underRoot "/srv/uploads" "/srv" = false ∧
    rootOnlyFS "/srv" = none ∧
    Event.create "/srv" ∈
      (uploadFileHandler calmEnv "/srv/uploads" (postOf ".." 2 [104, 105]) rootOnlyFS).calls ∧
    (uploadFileHandler calmEnv "/srv/uploads" (postOf ".." 2 [104, 105]) rootOnlyFS).fs "/srv"
      = some (Node.file [104, 105]) ∧
    bodyOf (uploadFileHandler calmEnv "/srv/uploads" (postOf ".." 2 [104, 105])
      rootOnlyFS).calls = "SUCCESS" ∧
    statusOf (uploadFileHandler calmEnv "/srv/uploads" (postOf ".." 2 [104, 105])
      rootOnlyFS).calls = 200 := by
  refine ⟨by decide, by decide, by decide, by decide, by decide, by decide, by decide,
    by decide⟩

/-- C9: two runs that differ only in the type the sniffer reports, neither type
failing the extension lookup, give the same body writes, the same status and the
same file system; and every arm of the switch on the detected type does
nothing. -/
theorem detected_type_is_inert (env : Env) (d1 d2 : Bytes → String) (uploadPath : String)
    (r : Request) (fs : FS)
    (hext : ∀ up B, r.formFile "uploadFile" = Except.ok up → up.readAll = Except.ok B →
      (∃ e1, env.extensionsByType (d1 B) = Except.ok e1) ∧
      (∃ e2, env.extensionsByType (d2 B) = Except.ok e2)) :
    bodyWrites (uploadFileHandler { env with detectContentType := d1 } uploadPath r fs).calls
      = bodyWrites (uploadFileHandler { env with detectContentType := d2 } uploadPath r fs).calls ∧
    writtenStatus (uploadFileHandler { env with detectContentType := d1 } uploadPath r fs).calls
      = writtenStatus
          (uploadFileHandler { env with detectContentType := d2 } uploadPath r fs).calls ∧
    (uploadFileHandler { env with detectContentType := d1 } uploadPath r fs).fs
      = (uploadFileHandler { env with detectContentType := d2 } uploadPath r fs).fs ∧
    ∀ t, typeSwitch t = [] := by
  refine ⟨?_, ?_, ?_, typeSwitch_nil⟩
  all_goals
    simp only [uploadFileHandler, persistStage, writeStage, typeSwitch_nil]
    split
    · rfl
    · cases hp : r.parseMultipartForm with
      | some e => rfl
      | none =>
        cases hf : r.formFile "uploadFile" with
        | error e => rfl
        | ok up =>
          simp only
          split
          · rfl
          · cases hr : up.readAll with
            | error e => rfl
            | ok B =>
              obtain ⟨⟨e1, h1⟩, ⟨e2, h2⟩⟩ := hext up B hf hr
              simp only [h1, h2]
              repeat' split
              all_goals simp [renderError, bodyWrites, writtenStatus]

/-- C9, on `note.txt` sniffed as `image/png` and as `text/plain; charset=utf-8`. -/
theorem detected_type_is_inert_witness :
    bodyWrites (uploadFileHandler { calmEnv with detectContentType := fun _ => "image/png" }
        "/srv/uploads" (postOf "note.txt" 2 [104, 105]) emptyFS).calls
      = bodyWrites (uploadFileHandler
          { calmEnv with detectContentType := fun _ => "text/plain; charset=utf-8" }
          "/srv/uploads" (postOf "note.txt" 2 [104, 105]) emptyFS).calls ∧
    (uploadFileHandler { calmEnv with detectContentType := fun _ => "image/png" }
        "/srv/uploads" (postOf "note.txt" 2 [104, 105]) emptyFS).fs
      = (uploadFileHandler
          { calmEnv with detectContentType := fun _ => "text/plain; charset=utf-8" }
          "/srv/uploads" (postOf "note.txt" 2 [104, 105]) emptyFS).fs :=
  have h := detected_type_is_inert calmEnv (fun _ => "image/png")
    (fun _ => "text/plain; charset=utf-8") "/srv/uploads" (postOf "note.txt" 2 [104, 105])
    emptyFS (fun _ _ _ _ => ⟨⟨[], rfl⟩, ⟨[], rfl⟩⟩)
  ⟨h.1, h.2.2.1⟩

/-- C2 at a failing input: `Write` stores nothing and returns an error, the
`Close` in the condition returns nil; the handler answers `SUCCESS` with status
200, not `CANT_WRITE_FILE`, and the file it leaves is empty. -/
theorem write_error_reported_as_success :
    (fileWrite (shortWriteEnv 0).writeFault
      ((emptyFS.set "/srv/uploads" Node.dir).set "/srv/uploads/note.txt" (Node.file []))
      "/srv/uploads/note.txt" [104, 105]).2 ≠ none ∧
    bodyOf (uploadFileHandler (shortWriteEnv 0) "/srv/uploads"
      (postOf "note.txt" 2 [104, 105]) emptyFS).calls = "SUCCESS" ∧
    statusOf (uploadFileHandler (shortWriteEnv 0) "/srv/uploads"
      (postOf "note.txt" 2 [104, 105]) emptyFS).calls = 200 ∧
    (uploadFileHandler (shortWriteEnv 0) "/srv/uploads"
      (postOf "note.txt" 2 [104, 105]) emptyFS).fs "/srv/uploads/note.txt"
      = some (Node.file []) := by
  refine ⟨by decide, by decide, by decide, by decide⟩

/-- C10 at a failing input: `Write` fails after one of two bytes and `Close`
returns nil.  The calls show the failed write followed by the body write
`SUCCESS`: the failing step did not end the run and did not pick an error
token. -/
theorem run_continues_after_write_error :
    (uploadFileHandler (shortWriteEnv 1) "/srv/uploads"
      (postOf "note.txt" 2 [104, 105]) emptyFS).calls =
      [Event.parseMultipartForm 10737418240, Event.formFile "uploadFile",
        Event.printf "File size (bytes): %v\n" [Arg.int 2], Event.readAll,
        Event.detectContentType, Event.extensionsByType "application/octet-stream",
        Event.printf "FileType: %s, File: %s\n"
          [Arg.str "application/octet-stream", Arg.str "/srv/uploads/note.txt"],
        Event.mkdirAll "/srv/uploads" 504, Event.create "/srv/uploads/note.txt",
        Event.newFileWrite [104, 105], Event.newFileClose, Event.write "SUCCESS",
        Event.newFileClose, Event.uploadClose] ∧
    (uploadFileHandler (shortWriteEnv 1) "/srv/uploads"
      (postOf "note.txt" 2 [104, 105]) emptyFS).fs "/srv/uploads/note.txt"
      = some (Node.file [104]) := by
  refine ⟨by decide, by decide⟩

end FileServer
